import Mathlib

/-!
# Chat sessions (`backend/index.js`, `NewPrompt.jsx`): a shallow embedding

The Express route handlers of `backend/index.js` are embedded as pure functions
over an explicit store value.  Every handler takes the identity bound by the
Auth Gate, the parts of the request it reads, and the store, and returns the
HTTP response together with the store after the request.  The client functions
of `NewPrompt.jsx` (`add`, `mutationFn`, the effect guarded by `hasRun`) are
embedded further down, as functions of the view state and of what the provider
does.

Conventions.
* A JavaScript string is the list of its UTF-16 code units, so that
  `text.substring(0, 40)` is `List.take 40`.
* A value read from a JSON request body is a `JsVal`; a field that is absent
  reads as `undefined`.
* The two Mongoose collections are lists of documents in insertion order;
  `findOne` and `updateOne` act on the first document matching the filter.
* Store calls always complete.  A `catch` branch is therefore embedded only where
  the handler's own code can throw, which is `text.substring` in
  `POST /api/chats`; the 500 answers of the other `catch` branches need a
  rejected store call and do not occur here.
* Chat ids are the well-formed ones; `Store.freshId` stands for the id Mongoose
  generates for a new document.
-/

namespace DDS

/-! ## JavaScript values -/

/-- A JavaScript string, as the sequence of its UTF-16 code units. -/
abbrev JsString := List UInt16

/-- UTF-16 encoding of one Unicode scalar value. -/
def utf16 (c : Char) : List UInt16 :=
  if c.toNat < 0x10000 then [c.toNat.toUInt16]
  else
    [(0xD800 + (c.toNat - 0x10000) / 0x400).toUInt16,
     (0xDC00 + (c.toNat - 0x10000) % 0x400).toUInt16]

/-- The JavaScript string denoted by a literal. -/
def js (s : String) : JsString := s.toList.flatMap utf16

/-- A value found in a parsed JSON body (or `undefined` for an absent field).
Numbers are restricted to the integer-valued ones; arrays and objects are kept
opaque, since the handlers only test them for truthiness. -/
inductive JsVal where
  | undefined
  | null
  | bool (b : Bool)
  | num (n : Int)
  | str (s : JsString)
  | object
  deriving DecidableEq, Repr

/-- JavaScript truthiness (`ToBoolean`). -/
def JsVal.truthy : JsVal → Bool
  | .undefined => false
  | .null => false
  | .bool b => b
  | .num n => n != 0
  | .str s => !s.isEmpty
  | .object => true

/-- The call `v.substring(0, 40)`.  Only strings have a `substring` method; on
every other value the call throws a `TypeError`, whose message is returned. -/
def JsVal.substring40 : JsVal → Except String JsString
  | .str s => .ok (s.take 40)
  | .undefined => .error "Cannot read properties of undefined (reading 'substring')"
  | .null => .error "Cannot read properties of null (reading 'substring')"
  | _ => .error "text.substring is not a function"

/-- A parsed JSON request body: the object's fields. -/
abbrev Body := List (String × JsVal)

/-- Destructuring read `const { k } = req.body`. -/
def Body.field (b : Body) (k : String) : JsVal :=
  (b.lookup k).getD .undefined

/-- `String.prototype.split` with a one-code-unit separator. -/
def split (sep : UInt16) : JsString → List JsString
  | [] => [[]]
  | c :: cs =>
    if c = sep then [] :: split sep cs
    else
      match split sep cs with
      | [] => [[c]]
      | seg :: rest => (c :: seg) :: rest

/-! ## Documents and the store -/

abbrev UserId := String
abbrev ChatId := Nat

inductive Role where
  | user
  | model
  deriving DecidableEq, Repr

/-- One element of a turn's `parts` array. -/
structure Part where
  text : JsVal
  deriving DecidableEq, Repr

/-- One element of `Chat.history`; `img` is `none` when the key is absent. -/
structure Turn where
  role : Role
  parts : List Part
  img : Option JsVal
  deriving DecidableEq, Repr

/-- Modelled from the spec: the Mongoose model `models/chat.js`, as the document
`{ id, ownerId, history }` of the data model.  A document keeps the field values
the handler passes to it. -/
structure Chat where
  _id : ChatId
  userId : UserId
  history : List Turn
  deriving DecidableEq, Repr

/-- One element of `UserChats.chats`. -/
structure Entry where
  _id : ChatId
  title : JsString
  deriving DecidableEq, Repr

/-- Modelled from the spec: the Mongoose model `models/userChats.js`, as the
per-user document `{ ownerId, entries }` of the data model. -/
structure UserChats where
  userId : UserId
  chats : List Entry
  deriving DecidableEq, Repr

/-- The backing store: both collections, in insertion order. -/
structure Store where
  chats : List Chat
  userChats : List UserChats
  deriving DecidableEq, Repr

/-- The empty store. -/
def Store.empty : Store := ⟨[], []⟩

/-- The `_id` given to a new `Chat` document: an id no chat of the store has. -/
def Store.freshId (s : Store) : ChatId :=
  (s.chats.map (·._id)).foldr max 0 + 1

/-! ## Responses -/

/-- What a handler sends. -/
inductive Sent where
  | json (error : String) (message : Option String)
  | chatId (id : ChatId)
  | entries (chats : List Entry)
  | chat (chat : Chat)
  | updateResult (matchedCount modifiedCount : Nat)
  deriving DecidableEq, Repr

structure Response where
  status : Nat
  sent : Sent
  deriving DecidableEq, Repr

/-! ## Auth Gate -/

/-- The decoded token handed to the callback of `jwt.verify`. -/
structure TokenPayload where
  userId : UserId
  deriving DecidableEq, Repr

/-- What `authenticateToken` does with a request: either it answers itself and
`next` is not called, or it binds `req.user` and `req.userId` and calls `next`. -/
inductive Gate where
  | respond (res : Response)
  | next (user : TokenPayload) (userId : UserId)
  deriving DecidableEq, Repr

/-- The expression `authHeader && authHeader.split(' ')[1]`; `none` is `undefined`. -/
def bearerToken (authHeader : Option JsString) : Option JsString :=
  match authHeader with
  | none => none
  | some h => if h.isEmpty then some h else (split 32 h)[1]?

/-- The middleware `authenticateToken`.  `verify` stands for `jwt.verify` with the
server's secret: `none` when it reports an error, the decoded payload otherwise.
The test `!token` holds for `undefined` and for the empty string. -/
def authenticateToken (verify : JsString → Option TokenPayload)
    (authHeader : Option JsString) : Gate :=
  match bearerToken authHeader with
  | none => .respond ⟨401, .json "Unauthorized" (some "No token provided")⟩
  | some token =>
    if token.isEmpty then
      .respond ⟨401, .json "Unauthorized" (some "No token provided")⟩
    else
      match verify token with
      | none => .respond ⟨403, .json "Forbidden" (some "Invalid or expired token")⟩
      | some user => .next user user.userId

/-- The second space-separated segment of the Authorization header, when the
header is present and has one.  Used to state what the gate answers. -/
def secondSegment (authHeader : Option JsString) : Option JsString :=
  match authHeader with
  | none => none
  | some h => (split 32 h)[1]?

/-! ## Store operations used by the routes -/

/-- The filter `{ _id: id, userId }` on a chat document. -/
def Chat.matches (id : ChatId) (userId : UserId) (c : Chat) : Bool :=
  c._id == id && c.userId == userId

/-- `Chat.findOne({ _id: id, userId })`. -/
def Store.findChat (s : Store) (id : ChatId) (userId : UserId) : Option Chat :=
  s.chats.find? (Chat.matches id userId)

/-- `Chat.updateOne({ _id: id, userId }, { $push: { history: { $each: items } } })` on
the collection: the first matching chat gets `items` at the end of its history. -/
def pushHistory (id : ChatId) (userId : UserId) (items : List Turn) : List Chat → List Chat
  | [] => []
  | c :: cs =>
    if Chat.matches id userId c then { c with history := c.history ++ items } :: cs
    else c :: pushHistory id userId items cs

/-- `UserChats.findOne({ userId })`. -/
def Store.findUserChats (s : Store) (userId : UserId) : Option UserChats :=
  s.userChats.find? (fun d => d.userId == userId)

/-- `UserChats.updateOne({ userId }, { $push: { chats: e } })` on the collection. -/
def pushEntry (userId : UserId) (e : Entry) : List UserChats → List UserChats
  | [] => []
  | d :: ds =>
    if d.userId == userId then { d with chats := d.chats ++ [e] } :: ds
    else d :: pushEntry userId e ds

/-! ## Chat routes -/

/-- `POST /api/chats`, after the Auth Gate bound `userId`.  The chat is saved first;
the title is computed afterwards, in either branch of the index update, and a
`TypeError` raised there is caught and answered with 500. -/
def postChats (userId : UserId) (body : Body) (s : Store) : Response × Store :=
  let text := body.field "text"
  let newChat : Chat :=
    { _id := s.freshId, userId := userId,
      history := [{ role := .user, parts := [{ text := text }], img := none }] }
  -- `await newChat.save()`: the document joins the collection
  let s1 : Store := { s with chats := s.chats ++ [newChat] }
  match s1.findUserChats userId with
  | none =>
    match text.substring40 with
    | .error msg => (⟨500, .json "Error creating chat!" (some msg)⟩, s1)
    | .ok title =>
      (⟨201, .chatId newChat._id⟩,
       { s1 with userChats :=
           s1.userChats ++ [{ userId := userId, chats := [{ _id := newChat._id, title := title }] }] })
  | some _ =>
    match text.substring40 with
    | .error msg => (⟨500, .json "Error creating chat!" (some msg)⟩, s1)
    | .ok title =>
      (⟨201, .chatId newChat._id⟩,
       { s1 with userChats := pushEntry userId { _id := newChat._id, title := title } s1.userChats })

/-- `GET /api/userchats`. -/
def getUserChats (userId : UserId) (s : Store) : Response :=
  match s.findUserChats userId with
  | none => ⟨200, .entries []⟩
  | some userChats => ⟨200, .entries userChats.chats⟩

/-- `GET /api/chats/:id`. -/
def getChat (userId : UserId) (id : ChatId) (s : Store) : Response :=
  match s.findChat id userId with
  | none => ⟨404, .json "Chat not found" none⟩
  | some chat => ⟨200, .chat chat⟩

/-- The array `newItems` built by `PUT /api/chats/:id` from the request body. -/
def newItems (body : Body) : List Turn :=
  let question := body.field "question"
  let answer := body.field "answer"
  let img := body.field "img"
  (if question.truthy then
      [{ role := .user, parts := [{ text := question }],
         img := if img.truthy then some img else none }]
    else []) ++
  [{ role := .model, parts := [{ text := answer }], img := none }]

/-- `PUT /api/chats/:id`.  The result of `updateOne` is sent back with status 200
whatever its `matchedCount`. -/
def putChat (userId : UserId) (id : ChatId) (body : Body) (s : Store) : Response × Store :=
  let matched := if (s.findChat id userId).isSome then 1 else 0
  (⟨200, .updateResult matched matched⟩,
   { s with chats := pushHistory id userId (newItems body) s.chats })

/-! ## Requests through the gate -/

/-- The four chat routes, with what each reads from the request. -/
inductive Route where
  | createChat (body : Body)
  | listChats
  | getChat (id : ChatId)
  | appendTurns (id : ChatId) (body : Body)
  deriving DecidableEq, Repr

/-- A request to a chat route. -/
structure Request where
  authorization : Option JsString
  route : Route
  deriving DecidableEq, Repr

/-- One request handled by the server: the Auth Gate, then the route handler with
the identity the gate bound. -/
def handle (verify : JsString → Option TokenPayload) (req : Request) (s : Store) :
    Response × Store :=
  match authenticateToken verify req.authorization with
  | .respond res => (res, s)
  | .next _ userId =>
    match req.route with
    | .createChat body => postChats userId body s
    | .listChats => (getUserChats userId s, s)
    | .getChat id => (getChat userId id s, s)
    | .appendTurns id body => putChat userId id body s

/-- Sequentially handled `POST /api/chats` requests, each given as the verified
identity and the body; returns the responses in order and the final store. -/
def createAll : List (UserId × Body) → Store → List Response × Store
  | [], s => ([], s)
  | (userId, body) :: rest, s =>
    let r := postChats userId body s
    let rs := createAll rest r.2
    (r.1 :: rs.1, rs.2)

/-! ## The UserIndex invariant -/

/-- The entries for chat `id` found in the UserChats documents of `owner`. -/
def Store.entriesFor (s : Store) (owner : UserId) (id : ChatId) : List Entry :=
  ((s.userChats.filter (fun d => d.userId == owner)).flatMap (·.chats)).filter
    (fun e => e._id == id)

/-- Every chat has exactly one entry in the index of its owner, and every index
entry refers to an existing chat of the owner of that index. -/
def UserIndexInvariant (s : Store) : Prop :=
  (∀ c ∈ s.chats, (s.entriesFor c.userId c._id).length = 1) ∧
  (∀ d ∈ s.userChats, ∀ e ∈ d.chats, ∃ c ∈ s.chats, c._id = e._id ∧ c.userId = d.userId)

instance (s : Store) : Decidable (UserIndexInvariant s) := by
  unfold UserIndexInvariant
  infer_instance

/-! ## Client: the Stream Coordinator of `NewPrompt.jsx`

A run of `add` is embedded as the sequence of the effects it has on the view, in
program order: calls of the state setters, the points where it is suspended on an
`await`, and calls of `mutation.mutate()`.  The provider is given by what its
`sendMessageStream` does on the call at hand.

The view is embedded as two copies of its state: the one of the last render and
the one with all updates made so far.  A function defined in the component body
reads the state of the render that created it: `add` tests the `question` of the
render in which it was called, and `mutation.mutate()` runs the `mutationFn` of
the last render, since `useMutation` is handed a new `mutationFn` at every
render.  Nothing in `add` forces a render: whether React re-renders the view
while the run is suspended on an `await` depends on how long the suspension
lasts, so it is an input of the run, given for the suspensions in order.
-/

/-- An error thrown by the provider, by the two strings the `catch` of `add` reads:
`err.message || ''` and `JSON.stringify(err)`. -/
structure ProviderError where
  message : JsString
  json : JsString
  deriving DecidableEq, Repr

/-- What `chat.sendMessageStream` does on one call: the call rejects, or the stream
yields the texts of `chunks` in order and then ends, normally for `none` and with
a thrown error for `some err`. -/
inductive ProviderRun where
  | rejected (err : ProviderError)
  | streamed (chunks : List JsString) (failure : Option ProviderError)
  deriving DecidableEq, Repr

/-- The chat session `chat` of the view, by how it answers the call at hand. -/
structure ChatSession where
  sendMessageStream : ProviderRun
  deriving DecidableEq, Repr

/-- `String.prototype.includes`. -/
def includes (s pat : JsString) : Bool :=
  s.tails.any (fun t => pat.isPrefixOf t)

/-- The text `errorMessage` built in the `catch` of `add`. -/
def errorMessage (err : ProviderError) : JsString :=
  let errorMsg := err.message
  let errorStr := err.json
  js "Failed to get response from AI.\n\n" ++
  (if includes errorMsg (js "404") || includes errorMsg (js "not found")
        || includes errorMsg (js "is not found") || includes errorStr (js "404") then
      js "❌ The AI model is not available.\n\n" ++
      js "Possible causes:\n" ++
      js "1. Your API key might not have access to Gemini models\n" ++
      js "2. The model name might be incorrect for your API key\n" ++
      js "3. Your API key might be expired or invalid\n\n" ++
      js "Solutions:\n" ++
      js "• Get a new API key from: https://makersuite.google.com/app/apikey\n" ++
      js "• Make sure VITE_GEMINI_PUBLIC_KEY is set in .env file\n" ++
      js "• Restart your dev server after changing .env\n" ++
      js "• Check console for detailed error messages"
    else if includes errorMsg (js "API key") || includes errorMsg (js "authentication")
        || includes errorMsg (js "401") || includes errorMsg (js "403")
        || includes errorStr (js "401") || includes errorStr (js "403") then
      js "❌ Invalid or unauthorized API key.\n\n" ++
      js "Please:\n" ++
      js "1. Verify your API key at https://makersuite.google.com/app/apikey\n" ++
      js "2. Make sure VITE_GEMINI_PUBLIC_KEY is set correctly in .env file\n" ++
      js "3. Restart your dev server after changing .env\n" ++
      js "4. Check that your API key starts with \"AI\""
    else if includes errorMsg (js "quota") || includes errorMsg (js "rate limit")
        || includes errorStr (js "quota") then
      js "❌ API quota exceeded or rate limit reached.\n\n" ++
      js "Please try again later or check your API quota."
    else
      js "❌ Error: " ++ (if errorMsg.isEmpty then js "Unknown error" else errorMsg) ++
      js "\n\n" ++
      js "Please check:\n" ++
      js "1. Your internet connection\n" ++
      js "2. Your API key is valid\n" ++
      js "3. Browser console for more details")

/-- One effect of a run of `add` on the view. -/
inductive Event where
  | setQuestion (question : JsString)
  | setAnswer (answer : JsString)
  | suspend
  | mutate
  deriving DecidableEq, Repr

/-- The body of the `for await` loop, over the chunks the stream yields: each chunk
is awaited, its text is added to `accumulatedText`, and the sum is passed to
`setAnswer`.  Returns the effects and the final `accumulatedText`. -/
def consume (accumulatedText : JsString) : List JsString → List Event × JsString
  | [] => ([], accumulatedText)
  | chunkText :: rest =>
    let r := consume (accumulatedText ++ chunkText) rest
    (.suspend :: .setAnswer (accumulatedText ++ chunkText) :: r.1, r.2)

/-- The outer `catch` of `add`: the error text is shown, and the commit is tried
when `question`, as `add` captured it, is non-empty. -/
def addCatch (question : JsString) (err : ProviderError) : List Event :=
  [.setAnswer (errorMessage err)] ++ (if question.isEmpty then [] else [.mutate])

/-- The error thrown by `add` when the API key is not configured. -/
def apiKeyError : ProviderError :=
  { message := js ("Gemini API key is not configured. Please set VITE_GEMINI_PUBLIC_KEY " ++
      "in your .env file and restart the dev server."),
    json := js "\x7b\x7d" }

/-- The function `add(text, isInitial)` of a render whose `question` state is
`question`, with the session `chat` (`none` for `null`) and the configured
`apiKey` (`none` for `undefined`). -/
def add (chat : Option ChatSession) (apiKey : Option JsString) (question : JsString)
    (text : JsString) (isInitial : Bool) : List Event :=
  match chat with
  | none => [.setAnswer (js "Error: Chat not initialized. Please refresh the page.")]
  | some chat =>
    (if isInitial then [] else [.setQuestion text]) ++
    (if (apiKey.getD []).isEmpty then addCatch question apiKeyError
     else
      [.setAnswer (js "Thinking..."), .suspend] ++
      (match chat.sendMessageStream with
       | .rejected err => addCatch question err
       | .streamed chunks failure =>
         let loop := consume [] chunks
         let accumulatedText := loop.2
         let hasReceivedChunk := !chunks.isEmpty
         loop.1 ++ [.suspend] ++
         (match failure with
          | none =>
            if !accumulatedText.isEmpty then [.mutate]
            else if !hasReceivedChunk then
              [.setAnswer (js ("Sorry, I did not receive a response. The AI model might " ++
                "not be available. Please check your API key."))]
            else
              [.setAnswer (js "Sorry, I did not receive a valid response. Please try again.")]
          | some streamError =>
            if !accumulatedText.isEmpty then [.mutate]
            else addCatch question streamError)))

/-- The state of the view that the commit reads: `question`, `answer` and
`img.dbData.filePath` (`none` when the key is absent). -/
structure ViewState where
  question : JsString
  answer : JsString
  filePath : Option JsString
  deriving DecidableEq, Repr

/-- The state of a view that has just been created. -/
def ViewState.initial : ViewState := ⟨[], [], none⟩

/-- The request body sent by `mutationFn` in a render with state `v`, as the server
parses it: `JSON.stringify` leaves out the keys whose value is `undefined`. -/
def mutationFn (v : ViewState) : Body :=
  (if v.question.length != 0 then [("question", .str v.question)] else []) ++
  [("answer", .str v.answer)] ++
  (match v.filePath with
   | none => []
   | some filePath => if filePath.isEmpty then [] else [("img", .str filePath)])

/-- The view while a run of `add` goes on: the state of the last render, the state
with every update made so far, and for the coming suspensions of the run, in
order, whether React re-renders the view during the suspension (none does once
the list is used up). -/
structure View where
  rendered : ViewState
  latest : ViewState
  renders : List Bool
  deriving DecidableEq, Repr

/-- The view when the run resumes from an `await`: re-rendered with the latest
state if a render took place during the suspension, as rendered before if not. -/
def View.resume (v : View) : View :=
  match v.renders with
  | [] => v
  | render :: rest =>
    { rendered := if render then v.latest else v.rendered, latest := v.latest,
      renders := rest }

/-- The request bodies committed by a sequence of effects, in order: each call of
`mutation.mutate()` sends the body `mutationFn` builds from the state of the last
render. -/
def View.commits (v : View) : List Event → List Body
  | [] => []
  | .setQuestion q :: rest =>
    View.commits { v with latest := { v.latest with question := q } } rest
  | .setAnswer a :: rest =>
    View.commits { v with latest := { v.latest with answer := a } } rest
  | .suspend :: rest => View.commits v.resume rest
  | .mutate :: rest => mutationFn v.rendered :: View.commits v rest

/-- The view after a sequence of effects. -/
def View.after (v : View) : List Event → View
  | [] => v
  | .setQuestion q :: rest =>
    View.after { v with latest := { v.latest with question := q } } rest
  | .setAnswer a :: rest =>
    View.after { v with latest := { v.latest with answer := a } } rest
  | .suspend :: rest => View.after v.resume rest
  | .mutate :: rest => View.after v rest

/-- The number of calls of `mutation.mutate()` in a run. -/
def mutateCount (events : List Event) : Nat :=
  events.count .mutate

/-- The values passed to `setAnswer` in a run, in order. -/
def surfaced : List Event → List JsString
  | [] => []
  | .setAnswer a :: rest => a :: surfaced rest
  | _ :: rest => surfaced rest

/-- The request bodies committed by one run of `add(text, isInitial)` started in a
view rendered with state `v`, where `renders` says for the suspensions of the run
whether the view is re-rendered during them. -/
def runAdd (v : ViewState) (renders : List Bool) (chat : Option ChatSession)
    (apiKey : Option JsString) (text : JsString) (isInitial : Bool) : List Body :=
  View.commits ⟨v, v, renders⟩ (add chat apiKey v.question text isInitial)

/-! ## Client: the session of the view -/

/-- One element of the `history` handed to `startChat`. -/
structure Content where
  role : Role
  parts : List Part
  deriving DecidableEq, Repr

/-- The `history` of the `useMemo` that creates `chat`: each turn of the loaded chat
keeps its role, and its first text when that is truthy; otherwise its `parts` are
empty. -/
def chatHistory (data : Chat) : List Content :=
  data.history.map fun turn =>
    { role := turn.role,
      parts :=
        match turn.parts[0]? with
        | none => []
        | some part => if part.text.truthy then [{ text := part.text }] else [] }

/-- The `useMemo` that creates `chat` from `data`.  `modelInstance` is what
`getModel() || getSimpleModel()` returns (`none` for `null`), given by its
`startChat`, which answers `none` when it throws. -/
def chatMemo (apiKey : Option JsString)
    (modelInstance : Option (List Content → Option ChatSession)) (data : Option Chat) :
    Option ChatSession :=
  match data with
  | none => none
  | some data =>
    if (apiKey.getD []).isEmpty then none
    else
      match modelInstance with
      | none => none
      | some startChat => startChat (chatHistory data)

/-! ## Client: the Initial-Turn Trigger -/

/-- One run of the effect guarded by `hasRun`: the arguments of the call of `add` it
makes, if any, and `hasRun.current` afterwards.  `data` is the chat as loaded
from `GET /api/chats/:id`. -/
def initialTurnEffect (hasRun : Bool) (chat : Option ChatSession) (data : Option Chat) :
    Option (JsVal × Bool) × Bool :=
  let call :=
    if !hasRun && chat.isSome then
      match data with
      | none => none
      | some data =>
        if data.history.length == 1 then
          match data.history[0]? with
          | none => none
          | some firstMessage =>
            match firstMessage.parts[0]? with
            | none => none
            | some part => if part.text.truthy then some (part.text, true) else none
        else none
    else none
  (call, true)

/-- The effect runs of one view instance, in order: the calls of `add` made and
`hasRun.current` at the end. -/
def effectRuns (hasRun : Bool) :
    List (Option ChatSession × Option Chat) → List (JsVal × Bool) × Bool
  | [] => ([], hasRun)
  | (chat, data) :: rest =>
    let r := initialTurnEffect hasRun chat data
    let rs := effectRuns r.2 rest
    (r.1.toList ++ rs.1, rs.2)

/-! ## Interleaved `POST /api/chats` requests

The handler is suspended at its three store calls.  A request in flight is at one
of the points below, and a schedule says which request runs up to its next store
call.
-/

/-- Where a `POST /api/chats` request stands. -/
inductive PostPoint where
  | start
  | saved (savedChat : ChatId)
  | looked (savedChat : ChatId) (userChats : Option UserChats)
  | responded (res : Response)
  deriving DecidableEq, Repr

/-- One store call of `POST /api/chats` and the code up to the next one. -/
def postStep (userId : UserId) (body : Body) : PostPoint → Store → PostPoint × Store
  | .start, s =>
    (.saved s.freshId,
     { s with chats := s.chats ++
        [{ _id := s.freshId, userId := userId,
           history := [{ role := .user, parts := [{ text := body.field "text" }], img := none }] }] })
  | .saved savedChat, s => (.looked savedChat (s.findUserChats userId), s)
  | .looked savedChat none, s =>
    match (body.field "text").substring40 with
    | .error msg => (.responded ⟨500, .json "Error creating chat!" (some msg)⟩, s)
    | .ok title =>
      (.responded ⟨201, .chatId savedChat⟩,
       { s with userChats :=
           s.userChats ++ [{ userId := userId, chats := [{ _id := savedChat, title := title }] }] })
  | .looked savedChat (some _), s =>
    match (body.field "text").substring40 with
    | .error msg => (.responded ⟨500, .json "Error creating chat!" (some msg)⟩, s)
    | .ok title =>
      (.responded ⟨201, .chatId savedChat⟩,
       { s with userChats := pushEntry userId { _id := savedChat, title := title } s.userChats })
  | .responded res, s => (.responded res, s)

/-- Requests in flight, each with the point it stands at. -/
abbrev InFlight := List ((UserId × Body) × PostPoint)

/-- The request at position `i` runs one step. -/
def stepAt (i : Nat) : InFlight → Store → InFlight × Store
  | [], s => ([], s)
  | (req, point) :: rest, s =>
    match i with
    | 0 =>
      let r := postStep req.1 req.2 point s
      ((req, r.1) :: rest, r.2)
    | j + 1 =>
      let r := stepAt j rest s
      ((req, point) :: r.1, r.2)

/-- A schedule, as the positions of the requests that run, step by step. -/
def runSchedule : List Nat → InFlight → Store → InFlight × Store
  | [], reqs, s => (reqs, s)
  | i :: schedule, reqs, s =>
    let r := stepAt i reqs s
    runSchedule schedule r.1 r.2

/-- The UserChats documents of a user. -/
def Store.indexDocs (s : Store) (userId : UserId) : List UserChats :=
  s.userChats.filter (fun d => d.userId == userId)

/-! ## Sample data -/

/-- A verifier accepting two tokens. -/
def sampleVerify (token : JsString) : Option TokenPayload :=
  if token = js "tokA" then some ⟨"alice"⟩
  else if token = js "tokB" then some ⟨"bob"⟩
  else none

/-- A store with one chat of alice, listed in her index. -/
def sampleStore : Store :=
  { chats := [⟨1, "alice", [⟨.user, [⟨.str (js "hello")⟩], none⟩]⟩],
    userChats := [⟨"alice", [⟨1, js "hello"⟩]⟩] }

/-! ## Basic facts about the store operations -/

theorem findChat_eq_none_iff (s : Store) (id : ChatId) (userId : UserId) :
    s.findChat id userId = none ↔ ∀ d ∈ s.chats, ¬ (d._id = id ∧ d.userId = userId) := by
  unfold Store.findChat
  rw [List.find?_eq_none]
  simp [Chat.matches]

theorem pushHistory_length (id : ChatId) (userId : UserId) (items : List Turn)
    (cs : List Chat) : (pushHistory id userId items cs).length = cs.length := by
  induction cs with
  | nil => rfl
  | cons c cs ih =>
    unfold pushHistory
    split <;> simp [ih]

/-- What `pushHistory` leaves at each position: the same chat, or the matched
chat with `items` added at the end of its history. -/
theorem pushHistory_getElem? (id : ChatId) (userId : UserId) (items : List Turn)
    (cs : List Chat) (i : Nat) (c : Chat) (hc : cs[i]? = some c) :
    (pushHistory id userId items cs)[i]? = some c ∨
    (Chat.matches id userId c = true ∧
      (pushHistory id userId items cs)[i]? = some { c with history := c.history ++ items }) := by
  induction cs generalizing i with
  | nil => simp at hc
  | cons d ds ih =>
    unfold pushHistory
    by_cases hm : Chat.matches id userId d = true
    · rw [if_pos hm]
      cases i with
      | zero =>
        simp only [List.getElem?_cons_zero, Option.some.injEq] at hc
        subst hc
        exact Or.inr ⟨hm, by simp⟩
      | succ j =>
        left
        simpa using hc
    · rw [if_neg hm]
      cases i with
      | zero => left; simpa using hc
      | succ j =>
        simp only [List.getElem?_cons_succ] at hc ⊢
        exact ih j hc

/-- Every branch of `POST /api/chats` leaves the chat collection with the new chat
saved at its end. -/
theorem postChats_chats (u : UserId) (body : Body) (s : Store) :
    (postChats u body s).2.chats =
      s.chats ++ [⟨s.freshId, u, [⟨.user, [⟨body.field "text"⟩], none⟩]⟩] := by
  unfold postChats
  simp only
  split <;> split <;> rfl

/-- The response of `POST /api/chats` is 201 with the new id when the body's `text`
is a string, and 500 otherwise. -/
theorem postChats_response (u : UserId) (body : Body) (s : Store) :
    (postChats u body s).1 =
      match (body.field "text").substring40 with
      | .ok _ => ⟨201, .chatId s.freshId⟩
      | .error msg => ⟨500, .json "Error creating chat!" (some msg)⟩ := by
  unfold postChats
  simp only
  split <;> split <;> simp_all

theorem substring40_ok_iff (v : JsVal) (title : JsString) :
    v.substring40 = .ok title ↔ ∃ t, v = .str t ∧ title = t.take 40 := by
  cases v <;> simp [JsVal.substring40, eq_comm]

/-- After the update, `findOne` with the same filter returns the matched chat with
`items` at the end of its history. -/
theorem find?_pushHistory (id : ChatId) (userId : UserId) (items : List Turn)
    (cs : List Chat) (c : Chat) (hc : cs.find? (Chat.matches id userId) = some c) :
    (pushHistory id userId items cs).find? (Chat.matches id userId)
      = some { c with history := c.history ++ items } := by
  induction cs with
  | nil => simp at hc
  | cons d ds ih =>
    unfold pushHistory
    by_cases hm : Chat.matches id userId d = true
    · rw [if_pos hm]
      have hm2 : Chat.matches id userId { d with history := d.history ++ items } = true := hm
      rw [List.find?_cons_of_pos _ hm] at hc
      rw [List.find?_cons_of_pos _ hm2]
      cases hc
      rfl
    · rw [if_neg hm]
      rw [List.find?_cons_of_neg _ hm] at hc
      rw [List.find?_cons_of_neg _ hm]
      exact ih hc

/-- `PUT /api/chats/:id` on a chat of the caller, then `GET /api/chats/:id`: the chat
comes back with `newItems` at the end of its history. -/
theorem getChat_putChat (s : Store) (u : UserId) (id : ChatId) (c : Chat) (body : Body)
    (hc : s.findChat id u = some c) :
    (putChat u id body s).1 = ⟨200, .updateResult 1 1⟩ ∧
    getChat u id (putChat u id body s).2
      = ⟨200, .chat { c with history := c.history ++ newItems body }⟩ := by
  constructor
  · simp [putChat, hc]
  · have h := find?_pushHistory id u (newItems body) s.chats c hc
    simp only [getChat, putChat, Store.findChat]
    rw [h]

/-- An update whose filter matches no chat changes nothing, and the route still
answers 200. -/
theorem putChat_unmatched (s : Store) (u : UserId) (id : ChatId) (body : Body)
    (hnone : s.findChat id u = none) :
    putChat u id body s = (⟨200, .updateResult 0 0⟩, s) := by
  have hall : ∀ cs : List Chat, cs.find? (Chat.matches id u) = none →
      pushHistory id u (newItems body) cs = cs := by
    intro cs
    induction cs with
    | nil => intro _; rfl
    | cons c cs ih =>
      intro h
      unfold pushHistory
      by_cases hm : Chat.matches id u c = true
      · rw [List.find?_cons_of_pos _ hm] at h
        cases h
      · rw [List.find?_cons_of_neg _ hm] at h
        rw [if_neg hm, ih h]
  simp only [putChat, hnone, hall s.chats hnone]
  rfl

/-! ## Chat ids stay unique, and the index follows successful creations -/

theorem lt_freshId (s : Store) (c : Chat) (hc : c ∈ s.chats) : c._id < s.freshId := by
  have hmax : ∀ (l : List Nat) (x : Nat), x ∈ l → x ≤ l.foldr max 0 := by
    intro l
    induction l with
    | nil => simp
    | cons a l ih =>
      intro x hx
      simp only [List.foldr_cons]
      rcases List.mem_cons.1 hx with rfl | h
      · exact le_max_left _ _
      · exact le_trans (ih x h) (le_max_right _ _)
  exact Nat.lt_succ_of_le (hmax (s.chats.map (·._id)) c._id (List.mem_map_of_mem _ hc))

theorem pushHistory_map_id (id : ChatId) (userId : UserId) (items : List Turn)
    (cs : List Chat) :
    (pushHistory id userId items cs).map (·._id) = cs.map (·._id) := by
  induction cs with
  | nil => rfl
  | cons c cs ih =>
    unfold pushHistory
    split <;> simp [ih]

/-- Unique chat ids are kept by every request. -/
theorem handle_keeps_ids_unique (verify : JsString → Option TokenPayload) (req : Request)
    (s : Store) (hids : (s.chats.map (·._id)).Nodup) :
    ((handle verify req s).2.chats.map (·._id)).Nodup := by
  cases hg : authenticateToken verify req.authorization with
  | respond res => simpa only [handle, hg] using hids
  | next user userId =>
    cases hr : req.route with
    | createChat body =>
      simp only [handle, hg, hr]
      rw [postChats_chats, List.map_append, List.nodup_append]
      refine ⟨hids, by simp, ?_⟩
      intro a ha hb
      simp only [List.map_cons, List.map_nil, List.mem_singleton] at hb
      obtain ⟨c, hc, rfl⟩ := List.mem_map.1 ha
      exact Nat.ne_of_lt (lt_freshId s c hc) hb
    | listChats => simpa only [handle, hg, hr] using hids
    | getChat id => simpa only [handle, hg, hr] using hids
    | appendTurns id body =>
      simp only [handle, hg, hr, putChat]
      rw [pushHistory_map_id]
      exact hids

theorem postChats_userChats (u : UserId) (body : Body) (s : Store) :
    (postChats u body s).2.userChats =
      match (body.field "text").substring40 with
      | .error _ => s.userChats
      | .ok title =>
        match s.findUserChats u with
        | none => s.userChats ++ [⟨u, [⟨s.freshId, title⟩]⟩]
        | some _ => pushEntry u ⟨s.freshId, title⟩ s.userChats := by
  unfold postChats
  simp only [Store.findUserChats]
  split <;> split <;> simp_all

theorem mem_pushEntry (u : UserId) (e : Entry) (ds : List UserChats) (d : UserChats)
    (hd : d ∈ pushEntry u e ds) :
    d ∈ ds ∨ ∃ d0 ∈ ds, d0.userId = u ∧ d = { d0 with chats := d0.chats ++ [e] } := by
  induction ds with
  | nil => simp [pushEntry] at hd
  | cons a ds ih =>
    unfold pushEntry at hd
    by_cases ha : (a.userId == u) = true
    · rw [if_pos ha] at hd
      rcases List.mem_cons.1 hd with rfl | h
      · exact Or.inr ⟨a, List.mem_cons_self _ _, by simpa using ha, rfl⟩
      · exact Or.inl (List.mem_cons_of_mem _ h)
    · rw [if_neg ha] at hd
      rcases List.mem_cons.1 hd with rfl | h
      · exact Or.inl (List.mem_cons_self _ _)
      · rcases ih h with h1 | ⟨d0, h0, h2, h3⟩
        · exact Or.inl (List.mem_cons_of_mem _ h1)
        · exact Or.inr ⟨d0, List.mem_cons_of_mem _ h0, h2, h3⟩

theorem entriesFor_append_doc (s s' : Store) (d : UserChats)
    (h : s'.userChats = s.userChats ++ [d]) (owner : UserId) (id : ChatId) :
    (s'.entriesFor owner id).length =
      (s.entriesFor owner id).length +
        (if d.userId = owner then (d.chats.filter (fun e => e._id == id)).length else 0) := by
  unfold Store.entriesFor
  rw [h]
  by_cases hd : d.userId = owner
  · simp [List.filter_append, List.flatMap_append, hd, List.filter_cons]
  · simp [List.filter_append, List.flatMap_append, hd, List.filter_cons]

theorem entriesFor_pushEntry (s s' : Store) (u : UserId) (e : Entry)
    (h : s'.userChats = pushEntry u e s.userChats) (owner : UserId) (id : ChatId) :
    (s'.entriesFor owner id).length =
      (s.entriesFor owner id).length +
        (if (s.findUserChats u).isSome ∧ u = owner ∧ e._id = id then 1 else 0) := by
  unfold Store.entriesFor Store.findUserChats
  rw [h]
  generalize s.userChats = ds
  induction ds with
  | nil => simp [pushEntry]
  | cons a ds ih =>
    unfold pushEntry
    by_cases ha : a.userId = u
    · by_cases ho : u = owner
      · by_cases he : e._id = id
        · simp [ha, ho, he, List.filter_cons, List.filter_append]
          omega
        · simp [ha, ho, he, List.filter_cons, List.filter_append]
      · have : ¬ a.userId = owner := by rw [ha]; exact ho
        simp [ha, ho, this, List.filter_cons]
    · have hne : ¬ (a.userId == u) = true := by simpa using ha
      have hfind : List.find? (fun d : UserChats => d.userId == u) (a :: ds)
          = List.find? (fun d : UserChats => d.userId == u) ds := by
        simp [List.find?_cons, ha]
      rw [if_neg hne, hfind]
      by_cases hao : a.userId = owner
      · simp only [List.filter_cons, hao, beq_self_eq_true, if_true, List.flatMap_cons,
          List.filter_append, List.length_append] at ih ⊢
        rw [ih]
        omega
      · have hf : ∀ l : List UserChats,
            List.filter (fun d : UserChats => d.userId == owner) (a :: l)
              = List.filter (fun d : UserChats => d.userId == owner) l := by
          intro l
          simp [List.filter_cons, hao]
        rw [hf, hf]
        exact ih

/-- A successful `POST /api/chats` keeps the UserIndex invariant. -/
theorem postChats_keeps_index (u : UserId) (body : Body) (s : Store)
    (hs : UserIndexInvariant s) (hok : (postChats u body s).1.status = 201) :
    UserIndexInvariant (postChats u body s).2 := by
  have hr := postChats_response u body s
  have hcs := postChats_chats u body s
  have huc := postChats_userChats u body s
  cases hv : (body.field "text").substring40 with
  | error msg =>
    rw [hv] at hr
    rw [hr] at hok
    simp at hok
  | ok title =>
    rw [hv] at huc
    simp only at huc
    obtain ⟨h1, h2⟩ := hs
    -- no entry of the store carries the fresh id
    have hfresh : ∀ owner, (s.entriesFor owner s.freshId).length = 0 := by
      intro owner
      unfold Store.entriesFor
      rw [List.length_eq_zero, List.filter_eq_nil_iff]
      intro e he
      obtain ⟨d, hd, hed⟩ := List.mem_flatMap.1 he
      obtain ⟨c, hc, hce, -⟩ := h2 d (List.mem_of_mem_filter hd) e hed
      have hne : e._id ≠ s.freshId := by
        rw [← hce]
        exact Nat.ne_of_lt (lt_freshId s c hc)
      simpa using hne
    cases hf : s.findUserChats u with
    | none =>
      rw [hf] at huc
      simp only at huc
      have hcount := entriesFor_append_doc s (postChats u body s).2 _ huc
      constructor
      · intro c hc
        rw [hcs] at hc
        rw [hcount]
        rcases List.mem_append.1 hc with hc | hc
        · have hne : ¬ s.freshId = c._id := Nat.ne_of_gt (lt_freshId s c hc)
          rw [h1 c hc]
          simp [List.filter_cons, hne]
        · simp only [List.mem_singleton] at hc
          subst hc
          rw [hfresh]
          simp [List.filter_cons]
      · intro d hd e he
        rw [huc] at hd
        rw [hcs]
        rcases List.mem_append.1 hd with hd | hd
        · obtain ⟨c, hc, h⟩ := h2 d hd e he
          exact ⟨c, List.mem_append_left _ hc, h⟩
        · simp only [List.mem_singleton] at hd
          subst hd
          simp only [List.mem_singleton] at he
          subst he
          exact ⟨_, List.mem_append_right _ (List.mem_singleton_self _), rfl, rfl⟩
    | some d0 =>
      rw [hf] at huc
      simp only at huc
      have hcount := entriesFor_pushEntry s (postChats u body s).2 u _ huc
      constructor
      · intro c hc
        rw [hcs] at hc
        rw [hcount]
        rcases List.mem_append.1 hc with hc | hc
        · have hne : ¬ s.freshId = c._id := Nat.ne_of_gt (lt_freshId s c hc)
          rw [h1 c hc]
          simp [hne]
        · simp only [List.mem_singleton] at hc
          subst hc
          rw [hfresh]
          simp [hf]
      · intro d hd e he
        rw [huc] at hd
        rw [hcs]
        rcases mem_pushEntry u _ s.userChats d hd with hd | ⟨d1, hd1, hu, rfl⟩
        · obtain ⟨c, hc, h⟩ := h2 d hd e he
          exact ⟨c, List.mem_append_left _ hc, h⟩
        · rcases List.mem_append.1 he with he | he
          · obtain ⟨c, hc, h⟩ := h2 d1 hd1 e he
            exact ⟨c, List.mem_append_left _ hc, h⟩
          · simp only [List.mem_singleton] at he
            subst he
            exact ⟨_, List.mem_append_right _ (List.mem_singleton_self _), rfl, hu.symm⟩

/-- From a store where the UserIndex invariant holds, it holds again after every
sequence of `POST /api/chats` requests that were all answered 201. -/
theorem createAll_keeps_index (reqs : List (UserId × Body)) (s : Store)
    (hs : UserIndexInvariant s) (hok : ∀ r ∈ (createAll reqs s).1, r.status = 201) :
    UserIndexInvariant (createAll reqs s).2 := by
  induction reqs generalizing s with
  | nil => exact hs
  | cons q rest ih =>
    obtain ⟨u, body⟩ := q
    simp only [createAll] at hok ⊢
    apply ih
    · exact postChats_keeps_index u body s hs (hok _ (List.mem_cons_self _ _))
    · intro r hr
      exact hok r (List.mem_cons_of_mem _ hr)

/-! ## The claims -/

/-- C1: a `PUT /api/chats/:id` whose `(chatId, caller)` pair matches no chat is not
answered with 404.  Bob's request on alice's chat 1, and his request on the
absent chat 7, are both answered 200 with the result of an update that matched
nothing, and the store is unchanged. -/
theorem put_unmatched_is_acknowledged :
    sampleStore.findChat 1 "bob" = none ∧
    handle sampleVerify
        ⟨some (js "Bearer tokB"),
         .appendTurns 1 [("question", .str (js "Q")), ("answer", .str (js "A"))]⟩ sampleStore
      = (⟨200, .updateResult 0 0⟩, sampleStore) ∧
    sampleStore.findChat 7 "bob" = none ∧
    handle sampleVerify
        ⟨some (js "Bearer tokB"),
         .appendTurns 7 [("question", .str (js "Q")), ("answer", .str (js "A"))]⟩ sampleStore
      = (⟨200, .updateResult 0 0⟩, sampleStore) := by
  decide

/-- C2: when chat ids are unique in the store, `GET /api/chats/:id` with the identity
of a user who does not own the chat answers 404 "Chat not found", never the
chat, and the response equals the one for an id that no chat has. -/
theorem getChat_cross_owner_not_found (s : Store) (c : Chat) (userB : UserId)
    (absent : ChatId)
    (hids : (s.chats.map (·._id)).Nodup)
    (hc : c ∈ s.chats) (hB : userB ≠ c.userId)
    (habsent : ∀ d ∈ s.chats, d._id ≠ absent) :
    getChat userB c._id s = ⟨404, .json "Chat not found" none⟩ ∧
    getChat userB c._id s = getChat userB absent s := by
  have h1 : s.findChat c._id userB = none := by
    rw [findChat_eq_none_iff]
    rintro d hd ⟨hid, hu⟩
    have : d = c := List.inj_on_of_nodup_map hids hd hc hid
    subst this
    exact hB hu.symm
  have h2 : s.findChat absent userB = none := by
    rw [findChat_eq_none_iff]
    rintro d hd ⟨hid, _⟩
    exact habsent d hd hid
  simp [getChat, h1, h2]

theorem getChat_cross_owner_not_found_witness :
    getChat "bob" 1 sampleStore = ⟨404, .json "Chat not found" none⟩ ∧
    getChat "bob" 1 sampleStore = getChat "bob" 7 sampleStore :=
  getChat_cross_owner_not_found sampleStore
    ⟨1, "alice", [⟨.user, [⟨.str (js "hello")⟩], none⟩]⟩ "bob" 7
    (by decide) (by decide) (by decide) (by decide)

/-- C3: a `PUT /api/chats/:id` handled with user B's identity leaves every chat owned
by another user exactly as it was, at the same position of the collection, and
adds or removes no chat. -/
theorem putChat_other_owner_untouched (s : Store) (userB : UserId) (id : ChatId)
    (body : Body) (i : Nat) (c : Chat)
    (hc : s.chats[i]? = some c) (hB : c.userId ≠ userB) :
    (putChat userB id body s).2.chats[i]? = some c ∧
    (putChat userB id body s).2.chats.length = s.chats.length := by
  refine ⟨?_, pushHistory_length _ _ _ _⟩
  rcases pushHistory_getElem? id userB (newItems body) s.chats i c hc with h | ⟨hm, _⟩
  · exact h
  · simp [Chat.matches] at hm
    exact absurd hm.2 hB

theorem putChat_other_owner_untouched_witness :
    (putChat "bob" 1 [("question", .str (js "Q")), ("answer", .str (js "A"))]
        sampleStore).2.chats[0]?
      = some ⟨1, "alice", [⟨.user, [⟨.str (js "hello")⟩], none⟩]⟩ ∧
    (putChat "bob" 1 [("question", .str (js "Q")), ("answer", .str (js "A"))]
        sampleStore).2.chats.length = sampleStore.chats.length :=
  putChat_other_owner_untouched sampleStore "bob" 1
    [("question", .str (js "Q")), ("answer", .str (js "A"))] 0
    ⟨1, "alice", [⟨.user, [⟨.str (js "hello")⟩], none⟩]⟩ (by decide) (by decide)

/-- The token the gate reads is the second segment of the header, except that an
empty header has none. -/
theorem bearerToken_eq (authHeader : Option JsString) :
    bearerToken authHeader = secondSegment authHeader ∨
    (bearerToken authHeader = some [] ∧ secondSegment authHeader = none) := by
  cases authHeader with
  | none => left; rfl
  | some h =>
    cases h with
    | nil => right; exact ⟨rfl, rfl⟩
    | cons c cs => left; rfl

/-- C4 as stated fails: the header `Bearer  tokA` (two spaces) has a second
space-separated segment, the empty one, so it is not a header without a second
segment; the gate answers 401 all the same, although the token after it would
verify. -/
theorem authenticateToken_empty_segment_is_401 :
    secondSegment (some (js "Bearer  tokA")) = some [] ∧
    ¬ (some (js "Bearer  tokA") = (none : Option JsString) ∨
        secondSegment (some (js "Bearer  tokA")) = none) ∧
    authenticateToken sampleVerify (some (js "Bearer  tokA"))
      = .respond ⟨401, .json "Unauthorized" (some "No token provided")⟩ := by
  decide

/-- C4, amended: the gate answers 401 exactly when the Authorization header is
absent or its second space-separated segment is missing or empty; it answers 403
exactly when that segment is a non-empty token that `jwt.verify` rejects; and it
binds the payload's `userId` and calls `next` exactly when the token verifies.
Whenever the gate answers itself, the request gets that answer, the route
handler is not run and the store is untouched. -/
theorem authenticateToken_outcomes (verify : JsString → Option TokenPayload)
    (authHeader : Option JsString) :
    ((∃ sent, authenticateToken verify authHeader = .respond ⟨401, sent⟩) ↔
      (authHeader = none ∨ secondSegment authHeader = none ∨
        secondSegment authHeader = some [])) ∧
    ((∃ sent, authenticateToken verify authHeader = .respond ⟨403, sent⟩) ↔
      ∃ t, secondSegment authHeader = some t ∧ t ≠ [] ∧ verify t = none) ∧
    (∀ user userId, authenticateToken verify authHeader = .next user userId ↔
      (userId = user.userId ∧
        ∃ t, secondSegment authHeader = some t ∧ t ≠ [] ∧ verify t = some user)) ∧
    (∀ res, authenticateToken verify authHeader = .respond res →
      (res.status = 401 ∨ res.status = 403) ∧
      ∀ route s, handle verify ⟨authHeader, route⟩ s = (res, s)) := by
  rcases bearerToken_eq authHeader with hb | ⟨hb, hs⟩
  · cases hseg : secondSegment authHeader with
    | none =>
      rw [hseg] at hb
      simp [authenticateToken, hb, handle]
    | some t =>
      rw [hseg] at hb
      have hne : authHeader ≠ none := by
        rintro rfl
        simp [secondSegment] at hseg
      by_cases ht : t = []
      · subst ht
        simp [authenticateToken, hb, handle, hne]
      · have ht2 : t.isEmpty = false := by
          cases t with
          | nil => exact absurd rfl ht
          | cons a l => rfl
        cases hv : verify t with
        | none =>
          simp [authenticateToken, hb, handle, hne, ht, ht2, hv]
        | some user =>
          simp [authenticateToken, hb, handle, hne, ht, ht2, hv]
          intro u uid
          constructor
          · rintro ⟨rfl, rfl⟩
            exact ⟨rfl, rfl⟩
          · rintro ⟨rfl, rfl⟩
            exact ⟨rfl, rfl⟩
  · simp [authenticateToken, hb, hs, handle]

/-- C5: when `POST /api/chats` with verified identity `u` answers 201, the body's
`text` is a string `t`, and the chat saved by the request is owned by `u`, whatever
else the body carries, and its history is the single turn of role user and text
`t`; the response carries the id of that chat. -/
theorem postChats_success_stores_seed (u : UserId) (body : Body) (s : Store)
    (hok : (postChats u body s).1.status = 201) :
    ∃ t, body.field "text" = .str t ∧
      (postChats u body s).2.chats
        = s.chats ++ [⟨s.freshId, u, [⟨.user, [⟨.str t⟩], none⟩]⟩] ∧
      (postChats u body s).1 = ⟨201, .chatId s.freshId⟩ := by
  have hr := postChats_response u body s
  have hcs := postChats_chats u body s
  cases hv : (body.field "text").substring40 with
  | error msg =>
    rw [hv] at hr
    rw [hr] at hok
    simp at hok
  | ok title =>
    rw [hv] at hr
    obtain ⟨t, ht, -⟩ := (substring40_ok_iff _ _).1 hv
    refine ⟨t, ht, ?_, hr⟩
    rw [hcs, ht]

theorem postChats_success_stores_seed_witness :
    ∃ t, Body.field [("text", .str (js "hi")), ("userId", .str (js "mallory"))] "text" = .str t ∧
      (postChats "alice" [("text", .str (js "hi")), ("userId", .str (js "mallory"))]
          sampleStore).2.chats
        = sampleStore.chats ++ [⟨sampleStore.freshId, "alice", [⟨.user, [⟨.str t⟩], none⟩]⟩] ∧
      (postChats "alice" [("text", .str (js "hi")), ("userId", .str (js "mallory"))]
          sampleStore).1 = ⟨201, .chatId sampleStore.freshId⟩ :=
  postChats_success_stores_seed "alice"
    [("text", .str (js "hi")), ("userId", .str (js "mallory"))] sampleStore (by decide)

/-- C6: for a user with no UserChats document and a body whose `text` is the string
`t`, `POST /api/chats` answers 201 with the new id, and `GET /api/userchats` then
answers with exactly one entry, carrying that id and the title `t.take 40`: all of
`t` when `t` has at most 40 code units, and otherwise a string of length exactly
40 that starts `t`. -/
theorem createChat_then_listChats (u : UserId) (t : JsString) (body : Body) (s : Store)
    (hnew : s.findUserChats u = none) (ht : body.field "text" = .str t) :
    (postChats u body s).1 = ⟨201, .chatId s.freshId⟩ ∧
    getUserChats u (postChats u body s).2
      = ⟨200, .entries [⟨s.freshId, t.take 40⟩]⟩ ∧
    (t.length ≤ 40 → t.take 40 = t) ∧
    (40 < t.length → (t.take 40).length = 40 ∧ t.take 40 <+: t) := by
  have hnew2 : List.find? (fun d => d.userId == u) s.userChats = none := hnew
  refine ⟨?_, ?_, ?_, ?_⟩
  · rw [postChats_response, ht]
    rfl
  · simp only [postChats, Store.findUserChats, hnew2, ht, JsVal.substring40, getUserChats]
    rw [List.find?_append, hnew2]
    simp
  · intro h
    exact List.take_of_length_le h
  · intro h
    exact ⟨by simp [List.length_take]; omega, List.take_prefix _ _⟩

theorem createChat_then_listChats_witness :
    (postChats "alice"
        [("text", .str (js "0123456789012345678901234567890123456789-and-more"))]
        Store.empty).1 = ⟨201, .chatId Store.empty.freshId⟩ ∧
    getUserChats "alice" (postChats "alice"
        [("text", .str (js "0123456789012345678901234567890123456789-and-more"))]
        Store.empty).2
      = ⟨200, .entries [⟨Store.empty.freshId,
          (js "0123456789012345678901234567890123456789-and-more").take 40⟩]⟩ ∧
    ((js "0123456789012345678901234567890123456789-and-more").length ≤ 40 →
      (js "0123456789012345678901234567890123456789-and-more").take 40
        = js "0123456789012345678901234567890123456789-and-more") ∧
    (40 < (js "0123456789012345678901234567890123456789-and-more").length →
      ((js "0123456789012345678901234567890123456789-and-more").take 40).length = 40 ∧
      (js "0123456789012345678901234567890123456789-and-more").take 40
        <+: js "0123456789012345678901234567890123456789-and-more") :=
  createChat_then_listChats "alice"
    (js "0123456789012345678901234567890123456789-and-more")
    [("text", .str (js "0123456789012345678901234567890123456789-and-more"))]
    Store.empty (by decide) (by decide)

/-- C7: for a chat `c` of the caller, a `PUT /api/chats/:id` whose body has the
non-empty string `Q` as question, the string `A` as answer and no image is
answered 200, and the `GET /api/chats/:id` that follows returns the chat with
history `c.history` followed by the user turn of text `Q` and the model turn of
text `A`; these are its last two turns, in that order. -/
theorem putChat_then_getChat (s : Store) (u : UserId) (id : ChatId) (c : Chat)
    (Q A : JsString) (body : Body)
    (hc : s.findChat id u = some c) (hQ : Q ≠ [])
    (hq : body.field "question" = .str Q) (ha : body.field "answer" = .str A)
    (hi : (body.field "img").truthy = false) :
    (putChat u id body s).1.status = 200 ∧
    ∃ c', getChat u id (putChat u id body s).2 = ⟨200, .chat c'⟩ ∧
      c'.history
        = c.history ++ [⟨.user, [⟨.str Q⟩], none⟩, ⟨.model, [⟨.str A⟩], none⟩] ∧
      c'.history.drop (c'.history.length - 2)
        = [⟨.user, [⟨.str Q⟩], none⟩, ⟨.model, [⟨.str A⟩], none⟩] := by
  obtain ⟨h1, h2⟩ := getChat_putChat s u id c body hc
  have hitems : newItems body
      = [⟨.user, [⟨.str Q⟩], none⟩, ⟨.model, [⟨.str A⟩], none⟩] := by
    have hQ2 : Q.isEmpty = false := by
      cases Q with
      | nil => exact absurd rfl hQ
      | cons a l => rfl
    have hqt : (JsVal.str Q).truthy = true := by simp [JsVal.truthy, hQ2]
    simp [newItems, hq, ha, hi, hqt]
  refine ⟨by rw [h1], _, h2, ?_, ?_⟩
  · simp [hitems]
  · simp [hitems]

theorem putChat_then_getChat_witness :
    (putChat "alice" 1 [("question", .str (js "Q")), ("answer", .str (js "A"))]
        sampleStore).1.status = 200 ∧
    ∃ c', getChat "alice" 1 (putChat "alice" 1
        [("question", .str (js "Q")), ("answer", .str (js "A"))] sampleStore).2
          = ⟨200, .chat c'⟩ ∧
      c'.history
        = [⟨.user, [⟨.str (js "hello")⟩], none⟩]
            ++ [⟨.user, [⟨.str (js "Q")⟩], none⟩, ⟨.model, [⟨.str (js "A")⟩], none⟩] ∧
      c'.history.drop (c'.history.length - 2)
        = [⟨.user, [⟨.str (js "Q")⟩], none⟩, ⟨.model, [⟨.str (js "A")⟩], none⟩] :=
  putChat_then_getChat sampleStore "alice" 1
    ⟨1, "alice", [⟨.user, [⟨.str (js "hello")⟩], none⟩]⟩ (js "Q") (js "A")
    [("question", .str (js "Q")), ("answer", .str (js "A"))]
    (by decide) (by decide) (by decide) (by decide) (by decide)

/-- C8: whatever the request and whatever route handles it, every chat of the store
is still there afterwards at the same position, with the same id and owner, and
its history before the request is an initial segment of its history after it. -/
theorem history_append_only (verify : JsString → Option TokenPayload) (req : Request)
    (s : Store) (i : Nat) (c : Chat) (hc : s.chats[i]? = some c) :
    ∃ c', (handle verify req s).2.chats[i]? = some c' ∧
      c'._id = c._id ∧ c'.userId = c.userId ∧ c.history <+: c'.history := by
  have same : ∀ s' : Store, s'.chats = s.chats →
      ∃ c', s'.chats[i]? = some c' ∧
        c'._id = c._id ∧ c'.userId = c.userId ∧ c.history <+: c'.history := by
    intro s' h
    exact ⟨c, by rw [h]; exact hc, rfl, rfl, List.prefix_refl _⟩
  cases hg : authenticateToken verify req.authorization with
  | respond res =>
    simp only [handle, hg]
    exact same _ rfl
  | next user userId =>
    cases hr : req.route with
    | createChat body =>
      simp only [handle, hg, hr]
      refine ⟨c, ?_, rfl, rfl, List.prefix_refl _⟩
      rw [postChats_chats]
      have hi : i < s.chats.length := by
        by_contra hge
        rw [List.getElem?_eq_none (by omega)] at hc
        cases hc
      rw [List.getElem?_append_left hi]
      exact hc
    | listChats =>
      simp only [handle, hg, hr]
      exact same _ rfl
    | getChat id =>
      simp only [handle, hg, hr]
      exact same _ rfl
    | appendTurns id body =>
      simp only [handle, hg, hr]
      rcases pushHistory_getElem? id userId (newItems body) s.chats i c hc with h | ⟨_, h⟩
      · exact ⟨c, h, rfl, rfl, List.prefix_refl _⟩
      · exact ⟨_, h, rfl, rfl, List.prefix_append _ _⟩

theorem history_append_only_witness :
    ∃ c', (handle sampleVerify
        ⟨some (js "Bearer tokA"),
         .appendTurns 1 [("question", .str (js "Q")), ("answer", .str (js "A"))]⟩
        sampleStore).2.chats[0]? = some c' ∧
      c'._id = 1 ∧ c'.userId = "alice" ∧
      [⟨.user, [⟨.str (js "hello")⟩], none⟩] <+: c'.history :=
  history_append_only sampleVerify
    ⟨some (js "Bearer tokA"),
     .appendTurns 1 [("question", .str (js "Q")), ("answer", .str (js "A"))]⟩
    sampleStore 0 ⟨1, "alice", [⟨.user, [⟨.str (js "hello")⟩], none⟩]⟩ (by decide)

/-- C9: alice's `PUT /api/chats/1` with an empty body, on her own chat, carries
neither a question nor an answer.  It is acknowledged with 200, but it does not
leave the history unchanged: `newItems` holds the model turn whatever `answer`
is, so a model turn whose text is `undefined` is appended. -/
theorem put_empty_body_appends_a_turn :
    handle sampleVerify ⟨some (js "Bearer tokA"), .appendTurns 1 []⟩ sampleStore
      = (⟨200, .updateResult 1 1⟩,
         { chats := [⟨1, "alice", [⟨.user, [⟨.str (js "hello")⟩], none⟩,
                                   ⟨.model, [⟨.undefined⟩], none⟩]⟩],
           userChats := sampleStore.userChats }) ∧
    (handle sampleVerify ⟨some (js "Bearer tokA"), .appendTurns 1 []⟩ sampleStore).2.chats
      ≠ sampleStore.chats := by
  decide

/-- C10: from the empty store, one `POST /api/chats` by alice whose body is
`{ text: 5 }` saves the chat, then fails on `text.substring` and answers 500; the
chat stays in the store with no entry in any index, so the UserIndex invariant
does not hold afterwards. -/
theorem createChat_non_string_text_orphans_chat :
    createAll [("alice", [("text", .num 5)])] Store.empty
      = ([⟨500, .json "Error creating chat!" (some "text.substring is not a function")⟩],
         { chats := [⟨1, "alice", [⟨.user, [⟨.num 5⟩], none⟩]⟩], userChats := [] }) ∧
    ¬ UserIndexInvariant (createAll [("alice", [("text", .num 5)])] Store.empty).2 := by
  decide

/-! ## Facts about the client run -/

theorem consume_snd (acc : JsString) (chunks : List JsString) :
    (consume acc chunks).2 = acc ++ chunks.flatten := by
  induction chunks generalizing acc with
  | nil => simp [consume]
  | cons c cs ih => simp [consume, ih]

theorem mutateCount_consume (acc : JsString) (chunks : List JsString) :
    mutateCount (consume acc chunks).1 = 0 := by
  induction chunks generalizing acc with
  | nil => simp [consume, mutateCount]
  | cons c cs ih =>
    have h := ih (acc ++ c)
    simp only [mutateCount] at h ⊢
    simp [consume, h]

theorem surfaced_append (xs ys : List Event) :
    surfaced (xs ++ ys) = surfaced xs ++ surfaced ys := by
  induction xs with
  | nil => rfl
  | cons e xs ih => cases e <;> simp [surfaced, ih]

/-- The values the loop passes to `setAnswer`: after the chunk at position `k`, the
accumulator followed by the chunks up to that one. -/
theorem surfaced_consume (acc : JsString) (chunks : List JsString) :
    surfaced (consume acc chunks).1
      = (List.range chunks.length).map (fun k => acc ++ (chunks.take (k + 1)).flatten) := by
  induction chunks generalizing acc with
  | nil => simp [consume, surfaced]
  | cons c cs ih =>
    simp only [consume, surfaced, List.length_cons, List.range_succ_eq_map, List.map_cons,
      List.map_map, ih]
    simp [Function.comp_def, List.append_assoc]

theorem commits_append (v : View) (xs ys : List Event) :
    View.commits v (xs ++ ys) = View.commits v xs ++ View.commits (View.after v xs) ys := by
  induction xs generalizing v with
  | nil => rfl
  | cons e xs ih => cases e <;> simp [View.commits, View.after, ih]

theorem after_append (v : View) (xs ys : List Event) :
    View.after v (xs ++ ys) = View.after (View.after v xs) ys := by
  induction xs generalizing v with
  | nil => rfl
  | cons e xs ih => cases e <;> simp [View.after, ih]

/-- One request is committed for each call of `mutation.mutate()`. -/
theorem commits_length (v : View) (events : List Event) :
    (View.commits v events).length = mutateCount events := by
  induction events generalizing v with
  | nil => rfl
  | cons e es ih =>
    cases e <;> simp [View.commits, mutateCount, ih]

theorem commits_consume (v : View) (acc : JsString) (chunks : List JsString) :
    View.commits v (consume acc chunks).1 = [] := by
  apply List.eq_nil_of_length_eq_zero
  rw [commits_length, mutateCount_consume]

theorem commits_consume_suspend (v : View) (acc : JsString) (chunks : List JsString) :
    View.commits v ((consume acc chunks).1 ++ [.suspend]) = [] := by
  apply List.eq_nil_of_length_eq_zero
  rw [commits_length]
  simp only [mutateCount, List.count_append]
  have h := mutateCount_consume acc chunks
  simp only [mutateCount] at h
  simp [h]

theorem resume_latest (v : View) : v.resume.latest = v.latest := by
  unfold View.resume
  split <;> rfl

theorem resume_renders (v : View) : v.resume.renders = v.renders.drop 1 := by
  unfold View.resume
  split <;> simp_all

/-- A render during the suspension shows the latest state when the run resumes. -/
theorem resume_rendered (v : View) (h : v.renders.head? = some true) :
    v.resume.rendered = v.latest := by
  unfold View.resume
  split
  · simp_all
  · simp_all

/-- After the loop the latest state holds the accumulated text as `answer`, if a
chunk was received, and one suspension per chunk has gone by. -/
theorem after_consume (v : View) (acc : JsString) (chunks : List JsString) :
    (View.after v (consume acc chunks).1).latest
      = { v.latest with
            answer := if chunks.isEmpty then v.latest.answer else acc ++ chunks.flatten } ∧
    (View.after v (consume acc chunks).1).renders = v.renders.drop chunks.length := by
  induction chunks generalizing v acc with
  | nil => simp [consume, View.after]
  | cons c cs ih =>
    have h := ih { v.resume with latest := { v.resume.latest with answer := acc ++ c } }
      (acc ++ c)
    have hstep : View.after v (consume acc (c :: cs)).1
        = View.after { v.resume with latest := { v.resume.latest with answer := acc ++ c } }
            (consume (acc ++ c) cs).1 := rfl
    rw [hstep]
    refine ⟨?_, ?_⟩
    · rw [h.1]
      simp only [resume_latest]
      cases cs <;> simp [List.append_assoc]
    · rw [h.2]
      simp only [resume_renders, List.drop_drop, List.length_cons]
      congr 1
      omega

/-- The three steps of one request, run without interruption, are the handler
`postChats`. -/
theorem runSchedule_alone (u : UserId) (body : Body) (s : Store) :
    runSchedule [0, 0, 0] [((u, body), .start)] s
      = ([((u, body), .responded (postChats u body s).1)], (postChats u body s).2) := by
  cases hf : List.find? (fun d => d.userId == u) s.userChats <;>
    cases hv : (body.field "text").substring40 <;>
    simp [runSchedule, stepAt, postStep, postChats, Store.findUserChats, hf, hv]

theorem mutateCount_append (xs ys : List Event) :
    mutateCount (xs ++ ys) = mutateCount xs + mutateCount ys := by
  simp [mutateCount, List.count_append]

theorem mutateCount_addCatch (question : JsString) (err : ProviderError) :
    mutateCount (addCatch question err) ≤ 1 := by
  unfold addCatch mutateCount
  split <;> simp

/-- The run of `add` on a session whose stream yields `chunks`, with the API key
configured: the effects before the loop, the loop, and what follows the end of the
stream. -/
theorem add_streamed (apiKey : Option JsString) (question text : JsString)
    (isInitial : Bool) (chunks : List JsString) (failure : Option ProviderError)
    (hkey : (apiKey.getD []).isEmpty = false) :
    add (some ⟨.streamed chunks failure⟩) apiKey question text isInitial
      = ((if isInitial then [] else [.setQuestion text])
          ++ [.setAnswer (js "Thinking..."), .suspend])
        ++ (((consume [] chunks).1 ++ [.suspend])
        ++ (match failure with
            | none =>
              if !chunks.flatten.isEmpty then [.mutate]
              else if !(!chunks.isEmpty) then
                [.setAnswer (js ("Sorry, I did not receive a response. The AI model might " ++
                  "not be available. Please check your API key."))]
              else
                [.setAnswer (js "Sorry, I did not receive a valid response. Please try again.")]
            | some streamError =>
              if !chunks.flatten.isEmpty then [.mutate]
              else addCatch question streamError)) := by
  simp only [add, hkey, consume_snd, List.nil_append, List.append_assoc]
  rfl

/-! ## The claims on the client -/

/-- C16: whatever the session does (missing, request rejected, stream ended with or
without text, stream failed after any number of chunks), a run of `add` calls
`mutation.mutate()` at most once, and so commits at most one request. -/
theorem add_commits_at_most_once (v : ViewState) (renders : List Bool)
    (chat : Option ChatSession) (apiKey : Option JsString) (text : JsString)
    (isInitial : Bool) :
    mutateCount (add chat apiKey v.question text isInitial) ≤ 1 ∧
    (runAdd v renders chat apiKey text isInitial).length ≤ 1 := by
  have hcount : mutateCount (add chat apiKey v.question text isInitial) ≤ 1 := by
    have hpre : mutateCount (if isInitial then [] else [Event.setQuestion text]) = 0 := by
      cases isInitial <;> rfl
    cases chat with
    | none => simp [add, mutateCount]
    | some session =>
      obtain ⟨run⟩ := session
      cases hk : (apiKey.getD []).isEmpty
      · cases run with
        | rejected err =>
          have hadd : add (some ⟨.rejected err⟩) apiKey v.question text isInitial
              = (if isInitial then [] else [.setQuestion text])
                ++ ([.setAnswer (js "Thinking..."), .suspend] ++ addCatch v.question err) := by
            simp [add, hk]
          have h1 := mutateCount_addCatch v.question err
          have h2 : mutateCount [Event.setAnswer (js "Thinking..."), Event.suspend] = 0 := rfl
          rw [hadd, mutateCount_append, mutateCount_append, hpre, h2]
          omega
        | streamed chunks failure =>
          have h2 : mutateCount [Event.setAnswer (js "Thinking..."), Event.suspend] = 0 := rfl
          have h3 : mutateCount [Event.suspend] = 0 := rfl
          rw [add_streamed apiKey v.question text isInitial chunks failure hk]
          simp only [mutateCount_append, hpre, h2, h3, mutateCount_consume]
          cases failure with
          | none =>
            simp only
            split
            · exact le_of_eq rfl
            · split <;> exact Nat.zero_le _
          | some err =>
            simp only
            split
            · exact le_of_eq rfl
            · simpa using mutateCount_addCatch v.question err
      · have hadd : add (some ⟨run⟩) apiKey v.question text isInitial
            = (if isInitial then [] else [.setQuestion text])
              ++ addCatch v.question apiKeyError := by
          simp [add, hk]
        have h1 := mutateCount_addCatch v.question apiKeyError
        rw [hadd, mutateCount_append, hpre]
        omega
  exact ⟨hcount, by rw [runAdd, commits_length]; exact hcount⟩

/-- With a non-empty accumulated text, the run ends with the one call of
`mutation.mutate()`, whether the stream ended normally or with an error. -/
theorem add_streamed_text (apiKey : Option JsString) (question text : JsString)
    (isInitial : Bool) (chunks : List JsString) (failure : Option ProviderError)
    (hkey : (apiKey.getD []).isEmpty = false) (htext : chunks.flatten ≠ []) :
    add (some ⟨.streamed chunks failure⟩) apiKey question text isInitial
      = ((if isInitial then [] else [.setQuestion text])
          ++ [.setAnswer (js "Thinking..."), .suspend])
        ++ (((consume [] chunks).1 ++ [.suspend]) ++ [.mutate]) := by
  have hne : chunks.flatten.isEmpty = false := by
    cases h : chunks.flatten with
    | nil => exact absurd h htext
    | cons a l => rfl
  rw [add_streamed apiKey question text isInitial chunks failure hkey]
  cases failure <;> simp [hne]

/-- The request committed by a run whose stream yields a non-empty text, when the
view is re-rendered during the last suspension of the loop, the one that ends
with the end of the stream: it is built from the state with every update of the
run, so it carries the accumulated text as `answer`. -/
theorem runAdd_streamed_text (v : ViewState) (renders : List Bool)
    (apiKey : Option JsString) (text : JsString)
    (isInitial : Bool) (chunks : List JsString) (failure : Option ProviderError)
    (hkey : (apiKey.getD []).isEmpty = false) (htext : chunks.flatten ≠ [])
    (hrender : renders[chunks.length + 1]? = some true) :
    runAdd v renders (some ⟨.streamed chunks failure⟩) apiKey text isInitial
      = [mutationFn { question := (if isInitial then v.question else text),
                      answer := chunks.flatten, filePath := v.filePath }] := by
  have hchunks : chunks.isEmpty = false := by
    cases chunks with
    | nil => exact absurd rfl htext
    | cons a l => rfl
  have hpre : View.commits ⟨v, v, renders⟩
      ((if isInitial then [] else [Event.setQuestion text])
        ++ [.setAnswer (js "Thinking..."), .suspend]) = [] := by
    cases isInitial <;> rfl
  have hpre2 : (View.after ⟨v, v, renders⟩
      ((if isInitial then [] else [Event.setQuestion text])
        ++ [.setAnswer (js "Thinking..."), .suspend])).latest
      = { question := (if isInitial then v.question else text),
          answer := js "Thinking...", filePath := v.filePath } := by
    cases isInitial <;> simp [View.after, resume_latest]
  have hpre3 : (View.after ⟨v, v, renders⟩
      ((if isInitial then [] else [Event.setQuestion text])
        ++ [.setAnswer (js "Thinking..."), .suspend])).renders = renders.drop 1 := by
    cases isInitial <;> simp [View.after, resume_renders]
  rw [runAdd, add_streamed_text apiKey v.question text isInitial chunks failure hkey htext,
    commits_append, hpre, commits_append, commits_consume_suspend]
  generalize View.after ⟨v, v, renders⟩
      ((if isInitial then [] else [Event.setQuestion text])
        ++ [.setAnswer (js "Thinking..."), .suspend]) = v1 at hpre2 hpre3 ⊢
  obtain ⟨hl, hr⟩ := after_consume v1 [] chunks
  have hhead : (View.after v1 (consume [] chunks).1).renders.head? = some true := by
    rw [hr, hpre3, List.drop_drop, List.head?_drop]
    rw [← hrender]
    congr 1
    omega
  have hfinal : View.after v1 ((consume [] chunks).1 ++ [.suspend])
      = (View.after v1 (consume [] chunks).1).resume := by
    rw [after_append]
    rfl
  rw [hfinal]
  simp only [View.commits, List.nil_append, resume_rendered _ hhead, hl, hpre2, hchunks]
  simp

/-- C12: the stream yields `Hel`, `lo`, `!` and ends, and the run calls
`mutation.mutate()` once, but the request does not carry `Hello!` unless React
re-rendered the view after the last `setAnswer`.  With a render only while the
request to the provider is awaited, the chunks and the end of the stream arriving
together, the model text committed is the loading text, for a normal end and for
an error alike; with no render while the end of the stream is awaited it is
`Hello`; with a render during every suspension it is `Hello!`. -/
theorem stale_answer_is_committed :
    mutateCount (add (some ⟨.streamed [js "Hel", js "lo", js "!"] none⟩)
        (some (js "AIzaKey")) ViewState.initial.question (js "Q") false) = 1 ∧
    runAdd ViewState.initial [true, false, false, false, false]
        (some ⟨.streamed [js "Hel", js "lo", js "!"] none⟩)
        (some (js "AIzaKey")) (js "Q") false
      = [[("question", .str (js "Q")), ("answer", .str (js "Thinking..."))]] ∧
    runAdd ViewState.initial [true, false, false, false, false]
        (some ⟨.streamed [js "Hel", js "lo", js "!"] (some ⟨js "network", js "\x7b\x7d"⟩)⟩)
        (some (js "AIzaKey")) (js "Q") false
      = [[("question", .str (js "Q")), ("answer", .str (js "Thinking..."))]] ∧
    runAdd ViewState.initial [true, true, true, true, false]
        (some ⟨.streamed [js "Hel", js "lo", js "!"] none⟩)
        (some (js "AIzaKey")) (js "Q") false
      = [[("question", .str (js "Q")), ("answer", .str (js "Hello"))]] ∧
    runAdd ViewState.initial [true, true, true, true, true]
        (some ⟨.streamed [js "Hel", js "lo", js "!"] none⟩)
        (some (js "AIzaKey")) (js "Q") false
      = [[("question", .str (js "Q")), ("answer", .str (js "Hello!"))]] := by
  decide

/-- C18: with the chunks taken in the order the stream yields them, the values the
run passes to `setAnswer` are the loading text, then after the chunk at position
`k` the sum of the chunks up to that one, then at most one closing message; each
sum starts the next one. -/
theorem add_surfaces_accumulator (apiKey : Option JsString) (question text : JsString)
    (isInitial : Bool) (chunks : List JsString) (failure : Option ProviderError)
    (hkey : (apiKey.getD []).isEmpty = false) :
    (∃ closing, closing.length ≤ 1 ∧
      surfaced (add (some ⟨.streamed chunks failure⟩) apiKey question text isInitial)
        = js "Thinking..."
            :: ((List.range chunks.length).map (fun k => (chunks.take (k + 1)).flatten)
                ++ closing)) ∧
    (∀ k, k < chunks.length →
      (surfaced (add (some ⟨.streamed chunks failure⟩) apiKey question text isInitial))[k + 1]?
        = some (chunks.take (k + 1)).flatten) ∧
    (∀ k, (chunks.take k).flatten <+: (chunks.take (k + 1)).flatten) := by
  have hpre : surfaced ((if isInitial then [] else [Event.setQuestion text])
      ++ [.setAnswer (js "Thinking..."), .suspend]) = [js "Thinking..."] := by
    cases isInitial <;> rfl
  have hshape : ∃ closing, closing.length ≤ 1 ∧
      surfaced (add (some ⟨.streamed chunks failure⟩) apiKey question text isInitial)
        = js "Thinking..."
            :: ((List.range chunks.length).map (fun k => (chunks.take (k + 1)).flatten)
                ++ closing) := by
    rw [add_streamed apiKey question text isInitial chunks failure hkey]
    simp only [surfaced_append, hpre, surfaced_consume, List.nil_append]
    refine ⟨_, ?_, by simp [surfaced]; rfl⟩
    cases failure with
    | none =>
      simp only
      split
      · simp [surfaced]
      · split <;> simp [surfaced]
    | some err =>
      simp only
      split
      · simp [surfaced]
      · unfold addCatch
        split <;> simp [surfaced]
  refine ⟨hshape, ?_, ?_⟩
  · intro k hk
    obtain ⟨closing, -, h⟩ := hshape
    rw [h, List.getElem?_cons_succ, List.getElem?_append_left (by simpa using hk)]
    simp [List.getElem?_map, List.getElem?_range hk]
  · intro k
    rw [List.take_succ, List.flatten_append]
    exact List.prefix_append _ _

theorem add_surfaces_accumulator_witness :
    (∃ closing, closing.length ≤ 1 ∧
      surfaced (add (some ⟨.streamed [js "Hel", js "lo", js "!"] none⟩) (some (js "AIzaKey"))
          [] (js "Q") false)
        = js "Thinking..."
            :: ((List.range [js "Hel", js "lo", js "!"].length).map
                  (fun k => ([js "Hel", js "lo", js "!"].take (k + 1)).flatten)
                ++ closing)) ∧
    (∀ k, k < [js "Hel", js "lo", js "!"].length →
      (surfaced (add (some ⟨.streamed [js "Hel", js "lo", js "!"] none⟩) (some (js "AIzaKey"))
          [] (js "Q") false))[k + 1]?
        = some ([js "Hel", js "lo", js "!"].take (k + 1)).flatten) ∧
    (∀ k, ([js "Hel", js "lo", js "!"].take k).flatten
        <+: ([js "Hel", js "lo", js "!"].take (k + 1)).flatten) :=
  add_surfaces_accumulator (some (js "AIzaKey")) [] (js "Q") false
    [js "Hel", js "lo", js "!"] none (by decide)

/-- C13: an effect run in which the loaded chat is missing or its history does not
have exactly one turn makes no call of `add`, whatever the latch and the session. -/
theorem trigger_needs_one_turn (hasRun : Bool) (chat : Option ChatSession)
    (data : Option Chat) (hlen : ∀ d, data = some d → d.history.length ≠ 1) :
    (initialTurnEffect hasRun chat data).1 = none := by
  cases data with
  | none => simp [initialTurnEffect]
  | some d =>
    have h := hlen d rfl
    simp [initialTurnEffect, h]

theorem trigger_needs_one_turn_witness :
    (initialTurnEffect false (some ⟨.streamed [js "A"] none⟩)
      (some ⟨1, "alice", [⟨.user, [⟨.str (js "hello")⟩], none⟩,
                          ⟨.model, [⟨.str (js "hi")⟩], none⟩]⟩)).1 = none :=
  trigger_needs_one_turn false (some ⟨.streamed [js "A"] none⟩)
    (some ⟨1, "alice", [⟨.user, [⟨.str (js "hello")⟩], none⟩,
                        ⟨.model, [⟨.str (js "hi")⟩], none⟩]⟩)
    (by
      intro d hd
      cases hd
      decide)

theorem effectRuns_latched (runs : List (Option ChatSession × Option Chat)) :
    effectRuns true runs = ([], true) := by
  induction runs with
  | nil => rfl
  | cons r rest ih =>
    obtain ⟨chat, data⟩ := r
    simp [effectRuns, initialTurnEffect, ih]

/-- C14: over every sequence of effect runs of one view instance, with any sessions
and any loaded chats, `add` is called at most once; the latch is true after every
single effect run, whether or not the run called `add`; and from a true latch no
run calls `add` and the latch stays true. -/
theorem latch_one_shot (hasRun : Bool) (chat : Option ChatSession) (data : Option Chat)
    (runs : List (Option ChatSession × Option Chat)) :
    (effectRuns hasRun runs).1.length ≤ 1 ∧
    (initialTurnEffect hasRun chat data).2 = true ∧
    (effectRuns hasRun ((chat, data) :: runs)).2 = true ∧
    effectRuns true runs = ([], true) := by
  refine ⟨?_, rfl, ?_, effectRuns_latched runs⟩
  · cases runs with
    | nil => simp [effectRuns]
    | cons r rest =>
      obtain ⟨c, d⟩ := r
      have h2 : (initialTurnEffect hasRun c d).2 = true := rfl
      simp only [effectRuns, h2, effectRuns_latched, List.append_nil]
      cases (initialTurnEffect hasRun c d).1 <;> simp
  · have h2 : (initialTurnEffect hasRun chat data).2 = true := rfl
    simp only [effectRuns, h2, effectRuns_latched]

/-- When the only turn of the loaded chat has no first part, or one whose text is
falsy, the effect calls nothing, whatever the latch and the session. -/
theorem trigger_silent_without_seed_text (hasRun : Bool) (chat : Option ChatSession)
    (data : Chat) (seed : Turn) (hhistory : data.history = [seed])
    (hfalsy : ∀ part, seed.parts[0]? = some part → part.text.truthy = false) :
    initialTurnEffect hasRun chat (some data) = (none, true) := by
  cases hp : seed.parts[0]? with
  | none => simp [initialTurnEffect, hhistory, hp]
  | some part =>
    have h := hfalsy part hp
    simp [initialTurnEffect, hhistory, hp, h]

/-- C19: the session of the view is the one its `useMemo` creates from the loaded
chat: `startChat` is handed the seed turn as a content whose `parts` are empty
when the seed has no truthy text, and the provider's `startChat` throws on a
content without parts (`hsdk`).  So in a fresh view whose session is established
and whose loaded chat has exactly one turn, that turn has a text, the first
effect run calls `add` with this text and `isInitial = true`, and over this run
and all later ones of the view that is the only call. -/
theorem trigger_fires_once_on_seed (apiKey : Option JsString)
    (startChat : List Content → Option ChatSession) (data : Chat) (seed : Turn)
    (session : ChatSession) (runs : List (Option ChatSession × Option Chat))
    (hsdk : ∀ history : List Content, (∃ c ∈ history, c.parts = []) →
      startChat history = none)
    (hhistory : data.history = [seed])
    (hchat : chatMemo apiKey (some startChat) (some data) = some session) :
    ∃ part, seed.parts[0]? = some part ∧ part.text.truthy = true ∧
      initialTurnEffect false (chatMemo apiKey (some startChat) (some data)) (some data)
        = (some (part.text, true), true) ∧
      effectRuns false ((chatMemo apiKey (some startChat) (some data), some data) :: runs)
        = ([(part.text, true)], true) := by
  have hstart : startChat (chatHistory data) = some session := by
    unfold chatMemo at hchat
    simp only at hchat
    split at hchat
    · cases hchat
    · exact hchat
  have hparts : ∃ part, seed.parts[0]? = some part ∧ part.text.truthy = true := by
    by_contra hno
    have hh : chatHistory data
        = [⟨seed.role,
            match seed.parts[0]? with
            | none => []
            | some part => if part.text.truthy then [⟨part.text⟩] else []⟩] := by
      simp [chatHistory, hhistory]
    have hempty : ∃ c ∈ chatHistory data, c.parts = [] := by
      refine ⟨_, by rw [hh]; exact List.mem_singleton_self _, ?_⟩
      cases hp : seed.parts[0]? with
      | none => rfl
      | some part =>
        cases ht : part.text.truthy with
        | true => exact absurd ⟨part, hp, ht⟩ hno
        | false => simp [ht]
    rw [hsdk _ hempty] at hstart
    cases hstart
  obtain ⟨part, hp, ht⟩ := hparts
  have h1 : initialTurnEffect false (some session) (some data)
      = (some (part.text, true), true) := by
    simp [initialTurnEffect, hhistory, hp, ht]
  rw [hchat]
  refine ⟨part, hp, ht, h1, ?_⟩
  simp only [effectRuns, h1, effectRuns_latched]
  rfl

theorem trigger_fires_once_on_seed_witness :
    ∃ part, (⟨.user, [⟨.str (js "hello")⟩], none⟩ : Turn).parts[0]? = some part ∧
      part.text.truthy = true ∧
      initialTurnEffect false
          (chatMemo (some (js "AIzaKey"))
            (some fun history =>
              if history.any (fun c => c.parts.isEmpty) then none
              else some ⟨.streamed [js "A"] none⟩)
            (some ⟨1, "alice", [⟨.user, [⟨.str (js "hello")⟩], none⟩]⟩))
          (some ⟨1, "alice", [⟨.user, [⟨.str (js "hello")⟩], none⟩]⟩)
        = (some (part.text, true), true) ∧
      effectRuns false
          ((chatMemo (some (js "AIzaKey"))
              (some fun history =>
                if history.any (fun c => c.parts.isEmpty) then none
                else some ⟨.streamed [js "A"] none⟩)
              (some ⟨1, "alice", [⟨.user, [⟨.str (js "hello")⟩], none⟩]⟩),
            some ⟨1, "alice", [⟨.user, [⟨.str (js "hello")⟩], none⟩]⟩)
            :: [(some ⟨.streamed [js "A"] none⟩,
                 some ⟨1, "alice", [⟨.user, [⟨.str (js "hello")⟩], none⟩]⟩)])
        = ([(part.text, true)], true) :=
  trigger_fires_once_on_seed (some (js "AIzaKey"))
    (fun history =>
      if history.any (fun c => c.parts.isEmpty) then none
      else some ⟨.streamed [js "A"] none⟩)
    ⟨1, "alice", [⟨.user, [⟨.str (js "hello")⟩], none⟩]⟩
    ⟨.user, [⟨.str (js "hello")⟩], none⟩ ⟨.streamed [js "A"] none⟩
    [(some ⟨.streamed [js "A"] none⟩, some ⟨1, "alice", [⟨.user, [⟨.str (js "hello")⟩], none⟩]⟩)]
    (by
      intro history h
      obtain ⟨c, hc, hp⟩ := h
      have hany : history.any (fun c => c.parts.isEmpty) = true :=
        List.any_eq_true.2 ⟨c, hc, by simp [hp]⟩
      simp [hany])
    rfl (by decide)

/-- C17: a `PUT /api/chats/:id` that matches a chat of the caller adds `newItems` at
the end of its history and leaves the earlier turns at their positions.  When
`question` is truthy (for a string: non-empty) the turns added are the user turn
carrying the question, with `img` attached when `img` is truthy, then the model
turn carrying the answer; otherwise the model turn alone is added. -/
theorem putChat_append_shape (s : Store) (u : UserId) (id : ChatId) (c : Chat)
    (body : Body) (hc : s.findChat id u = some c) :
    getChat u id (putChat u id body s).2
      = ⟨200, .chat { c with history := c.history ++ newItems body }⟩ ∧
    (∀ (i : Nat) (t : Turn),
      c.history[i]? = some t → (c.history ++ newItems body)[i]? = some t) ∧
    ((body.field "question").truthy = true →
      newItems body
        = [⟨.user, [⟨body.field "question"⟩],
            if (body.field "img").truthy then some (body.field "img") else none⟩,
           ⟨.model, [⟨body.field "answer"⟩], none⟩]) ∧
    ((body.field "question").truthy = false →
      newItems body = [⟨.model, [⟨body.field "answer"⟩], none⟩]) ∧
    (∀ Q, body.field "question" = .str Q →
      ((body.field "question").truthy = true ↔ Q ≠ [])) ∧
    ((newItems body).map (·.role) = [.model] ∨
      (newItems body).map (·.role) = [.user, .model]) := by
  refine ⟨(getChat_putChat s u id c body hc).2, ?_, ?_, ?_, ?_, ?_⟩
  · intro i t ht
    have hi : i < c.history.length := by
      by_contra hge
      rw [List.getElem?_eq_none (by omega)] at ht
      cases ht
    rw [List.getElem?_append_left hi]
    exact ht
  · intro hq
    simp [newItems, hq]
  · intro hq
    simp [newItems, hq]
  · intro Q hQ
    rw [hQ]
    cases Q <;> simp [JsVal.truthy]
  · cases hq : (body.field "question").truthy <;> simp [newItems, hq]

theorem putChat_append_shape_witness :
    getChat "alice" 1 (putChat "alice" 1
        [("question", .str (js "Q")), ("answer", .str (js "A")), ("img", .str (js "/pic.png"))]
        sampleStore).2
      = ⟨200, .chat { (⟨1, "alice", [⟨.user, [⟨.str (js "hello")⟩], none⟩]⟩ : Chat) with
          history := [⟨.user, [⟨.str (js "hello")⟩], none⟩]
            ++ newItems [("question", .str (js "Q")), ("answer", .str (js "A")),
                         ("img", .str (js "/pic.png"))] }⟩ ∧
    newItems [("question", .str (js "Q")), ("answer", .str (js "A")),
              ("img", .str (js "/pic.png"))]
      = [⟨.user, [⟨.str (js "Q")⟩], some (.str (js "/pic.png"))⟩,
         ⟨.model, [⟨.str (js "A")⟩], none⟩] :=
  ⟨(putChat_append_shape sampleStore "alice" 1
      ⟨1, "alice", [⟨.user, [⟨.str (js "hello")⟩], none⟩]⟩
      [("question", .str (js "Q")), ("answer", .str (js "A")), ("img", .str (js "/pic.png"))]
      (by decide)).1,
   by decide⟩

theorem consume_no_setQuestion (acc : JsString) (chunks : List JsString) (q : JsString) :
    Event.setQuestion q ∉ (consume acc chunks).1 := by
  induction chunks generalizing acc with
  | nil => simp [consume]
  | cons c cs ih => simp [consume, ih]

theorem add_initial_no_setQuestion (chat : Option ChatSession) (apiKey : Option JsString)
    (question text q : JsString) :
    Event.setQuestion q ∉ add chat apiKey question text true := by
  cases chat with
  | none => simp [add]
  | some session =>
    obtain ⟨run⟩ := session
    have hcatch : ∀ err, Event.setQuestion q ∉ addCatch question err := by
      intro err
      unfold addCatch
      split <;> simp
    cases hk : (apiKey.getD []).isEmpty
    · cases run with
      | rejected err => simpa [add, hk] using hcatch err
      | streamed chunks failure =>
        rw [add_streamed apiKey question text true chunks failure hk]
        simp only [List.mem_append, not_or]
        refine ⟨by simp, ⟨consume_no_setQuestion [] chunks q, by simp⟩, ?_⟩
        cases failure with
        | none =>
          simp only
          split
          · simp
          · split <;> simp
        | some err =>
          simp only
          split
          · simp
          · exact hcatch err
    · simpa [add, hk] using hcatch apiKeyError

/-- While no run calls `setQuestion`, a view whose `question` is empty commits
requests without a question, whatever is rendered when. -/
theorem commits_without_question (v : View) (events : List Event)
    (hno : ∀ q, Event.setQuestion q ∉ events)
    (hr : v.rendered.question = []) (hl : v.latest.question = []) :
    ∀ b ∈ View.commits v events, b.field "question" = .undefined := by
  induction events generalizing v with
  | nil => simp [View.commits]
  | cons e es ih =>
    have hes : ∀ q, Event.setQuestion q ∉ es :=
      fun q h => hno q (List.mem_cons_of_mem _ h)
    cases e with
    | setQuestion q => exact absurd (List.mem_cons_self _ _) (hno q)
    | setAnswer a => exact ih _ hes hr hl
    | suspend =>
      apply ih _ hes
      · unfold View.resume
        split
        · exact hr
        · simp only
          split
          · exact hl
          · exact hr
      · rw [resume_latest]
        exact hl
    | mutate =>
      intro b hb
      simp only [View.commits, List.mem_cons] at hb
      rcases hb with rfl | hb
      · cases hf : v.rendered.filePath with
        | none => simp [mutationFn, hr, hf, Body.field, List.lookup]
        | some fp =>
          by_cases hfp : fp.isEmpty = true <;>
            simp [mutationFn, hr, hf, hfp, Body.field, List.lookup]
      · exact ih v hes hr hl b hb

/-- The run made by the trigger in a fresh view never commits a question, so the
server adds the model turn alone, whatever the session does and whenever the view
is rendered. -/
theorem initial_run_commits_no_question (renders : List Bool) (chat : Option ChatSession)
    (apiKey : Option JsString) (text : JsString) :
    ∀ b ∈ runAdd ViewState.initial renders chat apiKey text true,
      b.field "question" = .undefined ∧
      newItems b = [⟨.model, [⟨b.field "answer"⟩], none⟩] := by
  intro b hb
  have hq : b.field "question" = .undefined :=
    commits_without_question ⟨ViewState.initial, ViewState.initial, renders⟩ _
      (fun q => add_initial_no_setQuestion chat apiKey _ text q) rfl rfl b hb
  exact ⟨hq, by simp [newItems, hq, JsVal.truthy]⟩

/-- C20: alice's chat 1 holds the seed turn `hello` alone, and in a fresh view the
trigger calls `add("hello", true)`.  The stream yields `Hi ` and `there`, which
arrive together with its end, so that React re-rendered the view only while the
request to the provider was awaited.  The one request committed carries no
question, and the `PUT` adds the model turn alone, but its text is the loading
text and not `Hi there`: the history afterwards is the seed turn followed by a
model turn `Thinking...`. -/
theorem initial_turn_commits_stale_answer :
    initialTurnEffect false (some ⟨.streamed [js "Hi ", js "there"] none⟩)
        (some ⟨1, "alice", [⟨.user, [⟨.str (js "hello")⟩], none⟩]⟩)
      = (some (.str (js "hello"), true), true) ∧
    runAdd ViewState.initial [true, false, false, false]
        (some ⟨.streamed [js "Hi ", js "there"] none⟩) (some (js "AIzaKey")) (js "hello") true
      = [[("answer", .str (js "Thinking..."))]] ∧
    Body.field [("answer", .str (js "Thinking..."))] "question" = .undefined ∧
    handle sampleVerify
        ⟨some (js "Bearer tokA"), .appendTurns 1 [("answer", .str (js "Thinking..."))]⟩
        sampleStore
      = (⟨200, .updateResult 1 1⟩,
         { chats := [⟨1, "alice", [⟨.user, [⟨.str (js "hello")⟩], none⟩,
                                   ⟨.model, [⟨.str (js "Thinking...")⟩], none⟩]⟩],
           userChats := sampleStore.userChats }) := by
  decide

/-- C15: two `POST /api/chats` requests of the new user alice, interleaved so that
both look for her UserChats document before either writes one, are both answered
201, and the store then holds two UserChats documents for alice, with one entry
each. -/
theorem interleaved_createChat_two_indexes :
    runSchedule [0, 1, 0, 1, 0, 1]
        [(("alice", [("text", .str (js "a"))]), .start),
         (("alice", [("text", .str (js "b"))]), .start)] Store.empty
      = ([(("alice", [("text", .str (js "a"))]), .responded ⟨201, .chatId 1⟩),
          (("alice", [("text", .str (js "b"))]), .responded ⟨201, .chatId 2⟩)],
         { chats := [⟨1, "alice", [⟨.user, [⟨.str (js "a")⟩], none⟩]⟩,
                     ⟨2, "alice", [⟨.user, [⟨.str (js "b")⟩], none⟩]⟩],
           userChats := [⟨"alice", [⟨1, js "a"⟩]⟩, ⟨"alice", [⟨2, js "b"⟩]⟩] }) ∧
    ((runSchedule [0, 1, 0, 1, 0, 1]
        [(("alice", [("text", .str (js "a"))]), .start),
         (("alice", [("text", .str (js "b"))]), .start)] Store.empty).2.indexDocs
      "alice").length = 2 := by
  decide

/-- C11: in a view whose `question` state is empty, as in a fresh view, the run
`add(text, false)` commits nothing when generation fails before any chunk,
whatever the text and the error: not when the stream throws before its first
chunk, and not when `sendMessageStream` itself rejects.  The `catch` of `add`
tests the `question` of the render that created `add`, which `setQuestion(text)`
does not change, so the question is not saved.  Nor is anything committed when
the stream ends normally without a chunk. -/
theorem fresh_view_loses_question (renders : List Bool) (apiKey : Option JsString)
    (text : JsString) (err : ProviderError) :
    (mutateCount (add (some ⟨.streamed [] (some err)⟩) apiKey [] text false) = 0 ∧
      runAdd ViewState.initial renders (some ⟨.streamed [] (some err)⟩) apiKey text false
        = []) ∧
    (mutateCount (add (some ⟨.rejected err⟩) apiKey [] text false) = 0 ∧
      runAdd ViewState.initial renders (some ⟨.rejected err⟩) apiKey text false = []) ∧
    (mutateCount (add (some ⟨.streamed [] none⟩) apiKey [] text false) = 0 ∧
      runAdd ViewState.initial renders (some ⟨.streamed [] none⟩) apiKey text false
        = []) := by
  have hnil : ∀ chat : Option ChatSession,
      mutateCount (add chat apiKey [] text false) = 0 →
      runAdd ViewState.initial renders chat apiKey text false = [] := by
    intro chat h
    apply List.eq_nil_of_length_eq_zero
    rw [runAdd, commits_length]
    exact h
  have h1 : mutateCount (add (some ⟨.streamed [] (some err)⟩) apiKey [] text false) = 0 := by
    cases hk : (apiKey.getD []).isEmpty <;> simp [add, hk, addCatch, consume, mutateCount]
  have h2 : mutateCount (add (some ⟨.rejected err⟩) apiKey [] text false) = 0 := by
    cases hk : (apiKey.getD []).isEmpty <;> simp [add, hk, addCatch, mutateCount]
  have h3 : mutateCount (add (some ⟨.streamed [] none⟩) apiKey [] text false) = 0 := by
    cases hk : (apiKey.getD []).isEmpty <;> simp [add, hk, addCatch, consume, mutateCount]
  exact ⟨⟨h1, hnil _ h1⟩, ⟨h2, hnil _ h2⟩, ⟨h3, hnil _ h3⟩⟩

end DDS
